import Mathlib

set_option maxRecDepth 2000

/-!
Verification of the low-level FDC protocol engine of FLOMPY (flompy.c and
the assembly interrupt handler).  Each C function of interest is embedded
as an executable Lean definition over explicit state; the asynchronous
hardware is abstracted into environment oracles that supply the values the
code would read from ports and the outcome of each completion wait.
-/

namespace Flompy

/-- `MAX_TRACK_SIZE` from flompy.c: capacity of the low-level track buffer. -/
def MAX_TRACK_SIZE : Nat := 31000

/-- `LOW_TIMEOUT` from flompy.c: IRQ wait deadline in ~1/18 s clock ticks. -/
def LOW_TIMEOUT : Int := 10 * 18

/-- `SEEK_RETRIES` from flompy.c. -/
def SEEK_RETRIES : Nat := 8

/-- `READ_RETRIES` from flompy.c. -/
def READ_RETRIES : Nat := 4

-- the low-level error enum of flompy.c, in declaration order
def LOW_SUCCESS : Nat := 0
def LOW_RESET : Nat := 1
def LOW_CALIBRATE_TIMEOUT : Nat := 2
def LOW_CALIBRATE : Nat := 3
def LOW_SEEK_TIMEOUT : Nat := 4
def LOW_SEEK : Nat := 5
def LOW_TRACK_TIMEOUT : Nat := 6
def LOW_EMPTY : Nat := 7

/-!
## Interrupt capture engine

State shared between the interrupt handler and the foreground, as in
flompy.c: `lowpos`, `lowdata`, `lowtime`, `lowtime_on`, `floppy_irq_wait`.
The buffers are modelled as functions from index to cell value; `lowdata`
holds bytes (stored through a `uint8` cell, hence `% 256`) and `lowtime`
16-bit words.  `lowtime_on` and `floppy_irq_wait` are C `int`s, modelled
as `Nat` with zero / non-zero tests.
-/

structure IrqState where
  lowpos : Nat
  lowdata : Nat → Nat
  lowtime : Nat → Nat
  lowtime_on : Nat
  floppy_irq_wait : Nat

/-- Values the handler would read from hardware during one interrupt:
the main status register (`lowport|4`), the data register (`lowport|5`)
and the two timer bytes latched from port 0x40. -/
structure IrqInput where
  status : Nat
  data : Nat
  timerLo : Nat
  timerHi : Nat

/-- The C reference handler `floppy_irq_unused` from flompy.c.  The second
component collects the port writes performed (timer latch command and the
end-of-interrupt acknowledgment to port 0x20). -/
def floppy_irq_unused (i : IrqInput) (s : IrqState) : IrqState × List (Nat × Nat) :=
  if i.status &&& 0x20 ≠ 0 then
    -- non-DMA data flag: read one byte from the data register
    let data := i.data % 256
    if s.lowpos < MAX_TRACK_SIZE then
      let s1 : IrqState := { s with lowdata := Function.update s.lowdata s.lowpos data }
      if s.lowtime_on ≠ 0 then
        -- latch the system timer and store the 16-bit countdown sample
        let tval := (i.timerLo % 256) ||| ((i.timerHi % 256) <<< 8)
        let s2 : IrqState := { s1 with lowtime := Function.update s1.lowtime s.lowpos tval }
        ({ s2 with lowpos := s.lowpos + 1 }, [(0x43, 0x00), (0x20, 0x20)])
      else
        ({ s1 with lowpos := s.lowpos + 1 }, [(0x20, 0x20)])
    else (s, [(0x20, 0x20)])
  else
    -- result IRQ: clear the completion flag
    ({ s with floppy_irq_wait := 0 }, [(0x20, 0x20)])

/-- The installed assembly handler `floppy_irq_` from the .asm source,
following its branch structure (`jae data_finish` on `lowpos ≥
MAX_TRACK_SIZE`, `je time_finish` on `lowtime_on = 0`). -/
def floppy_irq_asm (i : IrqInput) (s : IrqState) : IrqState × List (Nat × Nat) :=
  if i.status &&& 0x20 ≠ 0 then
    let al := i.data % 256
    if MAX_TRACK_SIZE ≤ s.lowpos then
      (s, [(0x20, 0x20)])
    else
      let s1 : IrqState := { s with lowdata := Function.update s.lowdata s.lowpos al }
      if s.lowtime_on = 0 then
        ({ s1 with lowpos := s.lowpos + 1 }, [(0x20, 0x20)])
      else
        let ax := (i.timerLo % 256) ||| ((i.timerHi % 256) <<< 8)
        let s2 : IrqState := { s1 with lowtime := Function.update s1.lowtime s.lowpos ax }
        ({ s2 with lowpos := s.lowpos + 1 }, [(0x43, 0x00), (0x20, 0x20)])
  else
    ({ s with floppy_irq_wait := 0 }, [(0x20, 0x20)])

/-!
## Command sequencer

`floppy_write` / `floppy_read` from flompy.c poll the ready bit
(`inp(lowport|4) & 0x80`) with a `uint16` counter started at 0 and
post-incremented; the do-while runs until the counter wraps back to 0,
i.e. exactly 65536 ready checks.  The oracle `ready k` is the value of the
ready bit at the k-th poll.
-/

def pollRQM (ready : Nat → Bool) : Nat → Nat → Option Nat
  | _, 0 => none
  | idx, fuel + 1 => if ready idx then some idx else pollRQM ready (idx + 1) fuel

/-- `floppy_write` from flompy.c: returns 0 when the byte was handed to the
controller, -1 when the 65536-iteration poll budget is exhausted. -/
def floppy_write (ready : Nat → Bool) (_value : Nat) : Int :=
  match pollRQM ready 0 65536 with
  | some _ => 0
  | none => -1

/-- `floppy_read` from flompy.c: returns the data-register byte observed at
the first ready poll, or 0xFF when the poll budget is exhausted.
`dataAt k` is the data-register value at poll k. -/
def floppy_read (ready : Nat → Bool) (dataAt : Nat → Nat) : Nat :=
  match pollRQM ready 0 65536 with
  | some k => dataAt k % 256
  | none => 0xFF

/-!
## Wait-with-timeout

`floppy_irq_wait_timeout` from flompy.c alternates a short bounded poll of
the completion flag (65536 checks) with a BIOS clock read.  One
`WaitRound` records what one outer iteration observes: whether the flag
was seen cleared during the short poll, and the clock value a
`_bios_timeofday` call would return in that iteration.  `timestart`
starts at the sentinel 0 and is captured from the first clock read (a
clock reading of 0 leaves the sentinel in place, exactly as in the C).
-/

structure WaitRound where
  flagCleared : Bool
  clock : Int

/-- One pass of the outer do-while of `floppy_irq_wait_timeout`, with the
`timestart` state threaded; `some 0` = success, `some (-1)` = timeout,
`none` = the trace ended with the loop still running.  The second
component is the final `timestart`. -/
def waitRun : List WaitRound → Int → Option Int × Int
  | [], ts => (none, ts)
  | r :: rs, ts =>
    if r.flagCleared then (some 0, ts)
    else if ts = 0 then waitRun rs r.clock
    else if LOW_TIMEOUT ≤ r.clock - ts then (some (-1), ts)
    else waitRun rs ts

/-- `floppy_irq_wait_timeout` from flompy.c over a trace of outer rounds. -/
def floppy_irq_wait_timeout (rounds : List WaitRound) : Option Int :=
  (waitRun rounds 0).1

/-!
## Drive session state machine

Observable state of the session: the host interrupt vector and PIC mask,
the values saved by `floppy_irq_install` (`floppy_irq_old`,
`pic0_mask_old`), the last byte written to the digital output register
(`lowport|2`), the `floppy_c` cylinder byte from sense-interrupt-status,
and the shared capture state.  The byte-level handshakes of
`floppy_write` / `floppy_irq_status` and the IRQ-completion wait are
abstracted into environment oracles that answer, per attempt, with the
wait outcome and the cylinder value the status read would leave in
`floppy_c`.
-/

structure SessState where
  host_vector : Nat
  host_mask : Nat
  savedVector : Nat
  savedMask : Nat
  dor : Nat
  floppy_c : Nat
  lowpos : Nat
  lowdata : Nat → Nat
  lowtime : Nat → Nat
  lowtime_on : Nat

/-- Abstract id of the vector that `_dos_setvect(0x0E, floppy_irq)`
installs. -/
def FLOPPY_IRQ_VECTOR : Nat := 0xF10E

/-- `floppy_irq_install` from flompy.c: save the old vector and PIC mask,
install the handler and unmask IRQ 6 (`mask & ~(1<<6)`, i.e. `& 0xBF`). -/
def floppy_irq_install (st : SessState) : SessState :=
  { st with
    savedVector := st.host_vector
    savedMask := st.host_mask
    host_vector := FLOPPY_IRQ_VECTOR
    host_mask := st.host_mask &&& 0xBF }

/-- `floppy_irq_restore` from flompy.c: put back the saved vector and PIC
mask, then clear the saved vector (`floppy_irq_old = NULL`). -/
def floppy_irq_restore (st : SessState) : SessState :=
  { st with
    host_vector := st.savedVector
    host_mask := st.savedMask
    savedVector := 0 }

/-- `low_close` from flompy.c: digital output register back to the
reset/motor-off pattern (`0x00 | device`), then restore the IRQ routing. -/
def low_close (device : Nat) (st : SessState) : SessState :=
  floppy_irq_restore { st with dor := 0x00 ||| device }

/-- Oracle for one `low_open` run: whether the reset-completion wait times
out, whether the wait of calibrate attempt `i` times out, the cylinder
reported by sense-interrupt-status on calibrate attempt `i`, and the
cylinder left by the last of the four drain status reads after reset. -/
structure OpenEnv where
  resetTimeout : Bool
  calTimeout : Nat → Bool
  calCyl : Nat → Nat
  drainCyl : Nat

/-- The calibrate retry loop of `low_open` (attempt index `i`, remaining
iterations `fuel`, starting budget `SEEK_RETRIES`).  `some e` is an early
error return (always the calibrate IRQ timeout); `none` means the loop
ended, by `break` on cylinder 0 or by exhausting the budget. -/
def calLoop (env : OpenEnv) : Nat → Nat → SessState → SessState × Option Nat
  | _, 0, st => (st, none)
  | i, fuel + 1, st =>
    if env.calTimeout i then (st, some LOW_CALIBRATE_TIMEOUT)
    else
      let st1 : SessState := { st with floppy_c := env.calCyl i }
      if st1.floppy_c = 0 then (st1, none)
      else calLoop env (i + 1) fuel st1

/-- `low_open` from flompy.c.  The specify-command bytes and data-rate
write touch no modelled state; the digital output register writes and the
calibrate loop are followed exactly.  Every failure path runs `low_close`
before returning its error code. -/
def low_open (env : OpenEnv) (device : Nat) (st0 : SessState) : SessState × Nat :=
  let st := floppy_irq_install st0
  let st : SessState := { st with dor := 0x00 ||| device }   -- begin reset
  let st : SessState := { st with dor := 0x0C ||| device }   -- end reset
  if env.resetTimeout then (low_close device st, LOW_RESET)
  else
    -- four sense-interrupt-status reads to drain stale reset state
    let st : SessState := { st with floppy_c := env.drainCyl }
    -- motor on
    let st : SessState := { st with dor := (0x10 <<< device) ||| 0x0C ||| device }
    match calLoop env 0 SEEK_RETRIES st with
    | (st, some e) => (low_close device st, e)
    | (st, none) =>
      if st.floppy_c ≠ 0 then (low_close device st, LOW_CALIBRATE)
      else (st, LOW_SUCCESS)

/-- Oracle for one `low_read_track` run: per seek attempt, whether the
wait timed out and the cylinder reported; per read attempt, whether the
wait timed out, the (data byte, timer sample) pairs the data interrupts
deliver while the command runs, and the cylinder byte among the seven
result bytes. -/
structure ReadEnv where
  seekTimeout : Nat → Bool
  seekCyl : Nat → Nat
  readTimeout : Nat → Bool
  readCapture : Nat → List (Nat × Nat)
  readResultC : Nat → Nat

/-- The seek retry loop of `low_read_track`; same shape as `calLoop` with
goal cylinder `track`. -/
def seekLoop (env : ReadEnv) (track : Nat) : Nat → Nat → SessState → SessState × Option Nat
  | _, 0, st => (st, none)
  | i, fuel + 1, st =>
    if env.seekTimeout i then (st, some LOW_SEEK_TIMEOUT)
    else
      let st1 : SessState := { st with floppy_c := env.seekCyl i }
      if st1.floppy_c = track then (st1, none)
      else seekLoop env track (i + 1) fuel st1

/-- One data interrupt at the session level, mirroring the installed
handler: store the byte (and the timer sample when timing is enabled) at
`lowpos` and advance, saturating at `MAX_TRACK_SIZE`. -/
def captureByte (st : SessState) (d t : Nat) : SessState :=
  if st.lowpos < MAX_TRACK_SIZE then
    { st with
      lowdata := Function.update st.lowdata st.lowpos (d % 256)
      lowtime := if st.lowtime_on ≠ 0 then
                   Function.update st.lowtime st.lowpos (t % 65536)
                 else st.lowtime
      lowpos := st.lowpos + 1 }
  else st

/-- The data interrupts of one read-track attempt, applied in order. -/
def captureBytes : SessState → List (Nat × Nat) → SessState
  | st, [] => st
  | st, (d, t) :: rest => captureBytes (captureByte st d t) rest

/-- The read retry loop of `low_read_track`:
`for (i=0; lowpos==0 && i<READ_RETRIES; ++i)`.  The captured bytes of
attempt `i` arrive (through the IRQ handler) while the foreground waits;
then either the wait times out or the seven result bytes are consumed
(only `floppy_c` is tracked). -/
def readLoop (env : ReadEnv) : Nat → Nat → SessState → SessState × Option Nat
  | _, 0, st => (st, none)
  | i, fuel + 1, st =>
    if st.lowpos = 0 then
      let st1 := captureBytes st (env.readCapture i)
      if env.readTimeout i then (st1, some LOW_TRACK_TIMEOUT)
      else
        let st2 : SessState := { st1 with floppy_c := env.readResultC i }
        readLoop env (i + 1) fuel st2
    else (st, none)

/-- `low_read_track` from flompy.c: seek phase (retry loop then cylinder
check), then `lowpos = 0`, the read retry loop, and the
`lowpos < 1` empty-read check. -/
def low_read_track (env : ReadEnv) (track : Nat) (st : SessState) : SessState × Nat :=
  match seekLoop env track 0 SEEK_RETRIES st with
  | (st, some e) => (st, e)
  | (st, none) =>
    if st.floppy_c ≠ track then (st, LOW_SEEK)
    else
      -- lowpos = 0; the capture position is reset only after the seek phase
      match readLoop env 0 READ_RETRIES { st with lowpos := 0 } with
      | (st, some e) => (st, e)
      | (st, none) =>
        if st.lowpos < 1 then (st, LOW_EMPTY) else (st, LOW_SUCCESS)

/-!
## Track record serialization

`mode_low_track_write` from flompy.c: write `lowpos` as a 4-byte
little-endian count, then the `lowpos` data bytes, then — when timing is
enabled — normalize the timing buffer in place and write the `lowpos`
16-bit little-endian normalized values.  All arithmetic on timing cells
is 16-bit (`uint16`), modelled with `Int.emod 65536`.
-/

/-- Little-endian bytes of the `uint32` byte count (`fwrite(&w,4,1,f)`). -/
def le32 (w : Nat) : List Nat :=
  [w % 256, w / 256 % 256, w / 2 ^ 16 % 256, w / 2 ^ 24 % 256]

/-- `t = 0xFFFF - lowtime[0]` stored through a `uint16`. -/
def normBase (s0 : Nat) : Nat :=
  ((((0xFFFF : Int) - (s0 : Int)) % 65536).toNat)

/-- `lowtime[i] = (0xFFFF - lowtime[i]) - t` stored through a `uint16`. -/
def normTick (t si : Nat) : Nat :=
  (((((0xFFFF : Int) - (si : Int)) - (t : Int)) % 65536).toNat)

/-- The in-place timing normalization of `mode_low_track_write`, as a
function on the sample sequence `lowtime[0..lowpos)`. -/
def normalizeSamples (s : List Nat) : List Nat :=
  match s with
  | [] => []
  | s0 :: _ => s.map (fun si => normTick (normBase s0) si)

/-- `mode_low_track_write` from flompy.c.  Returns the updated state (the
normalization mutates `lowtime` in place) and the bytes appended to the
output file. -/
def mode_low_track_write (st : SessState) : SessState × List Nat :=
  let countBytes := le32 st.lowpos
  let dataBytes := (List.range st.lowpos).map st.lowdata
  if st.lowtime_on ≠ 0 then
    let t := normBase (st.lowtime 0)
    let st1 : SessState :=
      { st with lowtime := fun i => if i < st.lowpos then normTick t (st.lowtime i) else st.lowtime i }
    let timeBytes := (List.range st.lowpos).flatMap
      (fun i => [st1.lowtime i % 256, st1.lowtime i / 256 % 256])
    (st1, countBytes ++ dataBytes ++ timeBytes)
  else
    (st, countBytes ++ dataBytes)

/-- The body of the per-(track, side) loop of `mode_low_finish`:
`low_open`, on success `low_read_track`, `low_close`, then
`mode_low_track_write` regardless of the result.  Returns the new state
and the record appended to the file for this pair. -/
def mode_low_step (oenv : OpenEnv) (renv : ReadEnv) (device track : Nat)
    (st : SessState) : SessState × List Nat :=
  let (st1, r) := low_open oenv device st
  let (st2, _result) := if r = LOW_SUCCESS then low_read_track renv track st1 else (st1, r)
  let st3 := low_close device st2
  mode_low_track_write st3

/-- The (track, side) pairs visited by `mode_low_finish`, in loop order. -/
def trackPairs (tracks sides : Nat) : List (Nat × Nat) :=
  (List.range tracks).flatMap (fun c => (List.range sides).map (fun h => (c, h)))

/-- Iteration of `mode_low_step` over a pair list, with a per-pair
environment; collects the record written for every pair. -/
def runPairs (oe : Nat → Nat → OpenEnv) (re : Nat → Nat → ReadEnv) (device : Nat) :
    List (Nat × Nat) → SessState → SessState × List (List Nat)
  | [], st => (st, [])
  | (c, h) :: rest, st =>
    let (st1, rec) := mode_low_step (oe c h) (re c h) device c st
    let (st2, recs) := runPairs oe re device rest st1
    (st2, rec :: recs)

/-- `mode_low_finish` from flompy.c: loop over every (track, side) pair,
writing one record per pair. -/
def mode_low_finish (oe : Nat → Nat → OpenEnv) (re : Nat → Nat → ReadEnv) (device tracks sides : Nat)
    (st : SessState) : SessState × List (List Nat) :=
  runPairs oe re device (trackPairs tracks sides) st

/-!
## Concrete inputs used by the claim witnesses
-/

/-- A session state holding a 4096-byte captured track (timing off), as
left by a successful read of track 5 side 0. -/
def c1State : SessState :=
  { host_vector := 7, host_mask := 0xFF, savedVector := 0, savedMask := 0,
    dor := 0, floppy_c := 5, lowpos := 4096,
    lowdata := fun _ => 0xAA, lowtime := fun _ => 0, lowtime_on := 0 }

/-- Environment in which reset and calibration succeed at once. -/
def c1OpenEnv : OpenEnv :=
  { resetTimeout := false, calTimeout := fun _ => false, calCyl := fun _ => 0, drainCyl := 0 }

/-- Environment in which the seek succeeds at once and every read attempt
captures nothing. -/
def c1ReadEnv : ReadEnv :=
  { seekTimeout := fun _ => false, seekCyl := fun _ => 0,
    readTimeout := fun _ => false, readCapture := fun _ => [], readResultC := fun _ => 0 }

/-- A fresh session state with empty buffers. -/
def c1Start : SessState :=
  { host_vector := 7, host_mask := 0xFF, savedVector := 0, savedMask := 0,
    dor := 0, floppy_c := 0, lowpos := 0,
    lowdata := fun _ => 0, lowtime := fun _ => 0, lowtime_on := 0 }

/-- A data interrupt observation: non-DMA bit set, data byte 0xA5, timer
bytes (3, 1). -/
def c2Input : IrqInput := { status := 0x20, data := 0xA5, timerLo := 3, timerHi := 1 }

/-- An empty capture state with timing enabled and the wait flag set. -/
def c2State : IrqState :=
  { lowpos := 0, lowdata := fun _ => 0, lowtime := fun _ => 0,
    lowtime_on := 1, floppy_irq_wait := 1 }

/-- Environment whose reset wait times out. -/
def c3OpenEnv : OpenEnv :=
  { resetTimeout := true, calTimeout := fun _ => false, calCyl := fun _ => 0, drainCyl := 0 }

/-- A host state with a distinctive vector and mask. -/
def c3Start : SessState :=
  { host_vector := 0x1234, host_mask := 0xFD, savedVector := 9, savedMask := 9,
    dor := 0x1C, floppy_c := 0, lowpos := 0,
    lowdata := fun _ => 0, lowtime := fun _ => 0, lowtime_on := 0 }

/-- Environment whose seek mismatches on attempt 1 and matches track 5 on
attempt 2, with empty captures afterwards. -/
def c4ReadEnv : ReadEnv :=
  { seekTimeout := fun _ => false, seekCyl := fun i => if i = 0 then 3 else 5,
    readTimeout := fun _ => false, readCapture := fun _ => [], readResultC := fun _ => 0 }

/-- Environment whose seek to track 5 succeeds at once and whose read
attempts all capture nothing without timing out. -/
def c5ReadEnv : ReadEnv :=
  { seekTimeout := fun _ => false, seekCyl := fun _ => 5,
    readTimeout := fun _ => false, readCapture := fun _ => [], readResultC := fun _ => 0 }

/-- A session state pre-filled with the fill byte 0x77. -/
def c5State : SessState :=
  { host_vector := 7, host_mask := 0xFF, savedVector := 0, savedMask := 0,
    dor := 0, floppy_c := 0, lowpos := 12,
    lowdata := fun _ => 0x77, lowtime := fun _ => 0, lowtime_on := 0 }

/-- Environment whose seek never reaches track 5, so the read fails with
a seek failure. -/
def c10ReadEnv : ReadEnv :=
  { seekTimeout := fun _ => false, seekCyl := fun _ => 0,
    readTimeout := fun _ => false, readCapture := fun _ => [], readResultC := fun _ => 0 }

/-- A session state holding 3 bytes left over from a previous read. -/
def c10State : SessState :=
  { host_vector := 7, host_mask := 0xFF, savedVector := 0, savedMask := 0,
    dor := 0, floppy_c := 0, lowpos := 3,
    lowdata := fun _ => 9, lowtime := fun _ => 0, lowtime_on := 0 }

/-!
## Theorems
-/

/-- C9: the installed assembly interrupt handler is observationally
equivalent to the retained C reference handler `floppy_irq_unused`: for
every status byte, capture position, timing flag and buffer state they
produce the same state update and the same port writes (timer latch and
end-of-interrupt acknowledgment). -/
theorem c9_asm_handler_equivalent_to_c (i : IrqInput) (s : IrqState) :
    floppy_irq_asm i s = floppy_irq_unused i s := by
  unfold floppy_irq_asm floppy_irq_unused
  split_ifs <;> first | rfl | omega

/-- C2: a data interrupt (non-DMA status bit set) at capture position
`p < MAX_TRACK_SIZE` stores the data byte at index `p` (and, with timing
enabled, the latched 16-bit timer sample at index `p`) and advances the
position to `p + 1`; at `p = MAX_TRACK_SIZE` it leaves the state
untouched, so the position never exceeds the capacity. -/
theorem c2_data_interrupt_capture (i : IrqInput) (s : IrqState)
    (hbit : i.status &&& 0x20 ≠ 0) :
    (s.lowpos < MAX_TRACK_SIZE →
      (floppy_irq_asm i s).1.lowpos = s.lowpos + 1 ∧
      (floppy_irq_asm i s).1.lowdata = Function.update s.lowdata s.lowpos (i.data % 256) ∧
      (s.lowtime_on ≠ 0 →
        (floppy_irq_asm i s).1.lowtime
          = Function.update s.lowtime s.lowpos ((i.timerLo % 256) ||| ((i.timerHi % 256) <<< 8))) ∧
      (s.lowtime_on = 0 → (floppy_irq_asm i s).1.lowtime = s.lowtime)) ∧
    (s.lowpos = MAX_TRACK_SIZE → (floppy_irq_asm i s).1 = s) ∧
    (s.lowpos ≤ MAX_TRACK_SIZE → (floppy_irq_asm i s).1.lowpos ≤ MAX_TRACK_SIZE) := by
  unfold floppy_irq_asm
  rw [if_pos hbit]
  refine ⟨fun hlt => ?_, fun heq => ?_, fun hle => ?_⟩
  · rw [if_neg (by omega)]
    by_cases ht : s.lowtime_on = 0
    · simp [ht]
    · simp [ht]
  · rw [if_pos (le_of_eq heq.symm)]
  · by_cases hge : MAX_TRACK_SIZE ≤ s.lowpos
    · rw [if_pos hge]; exact hle
    · rw [if_neg hge]
      by_cases ht : s.lowtime_on = 0
      · simp [ht]; omega
      · simp [ht]; omega

/-- Witness for C2 at a concrete data interrupt on an empty capture state. -/
theorem c2_data_interrupt_capture_witness :
    (c2Input.status &&& 0x20 ≠ 0) ∧
    ((c2State.lowpos < MAX_TRACK_SIZE →
      (floppy_irq_asm c2Input c2State).1.lowpos = c2State.lowpos + 1 ∧
      (floppy_irq_asm c2Input c2State).1.lowdata
        = Function.update c2State.lowdata c2State.lowpos (c2Input.data % 256) ∧
      (c2State.lowtime_on ≠ 0 →
        (floppy_irq_asm c2Input c2State).1.lowtime
          = Function.update c2State.lowtime c2State.lowpos
              ((c2Input.timerLo % 256) ||| ((c2Input.timerHi % 256) <<< 8))) ∧
      (c2State.lowtime_on = 0 → (floppy_irq_asm c2Input c2State).1.lowtime = c2State.lowtime)) ∧
    (c2State.lowpos = MAX_TRACK_SIZE → (floppy_irq_asm c2Input c2State).1 = c2State) ∧
    (c2State.lowpos ≤ MAX_TRACK_SIZE →
      (floppy_irq_asm c2Input c2State).1.lowpos ≤ MAX_TRACK_SIZE)) :=
  ⟨by decide, c2_data_interrupt_capture c2Input c2State (by decide)⟩

theorem pollRQM_congr (ready ready' : Nat → Bool) :
    ∀ fuel idx, (∀ k, idx ≤ k → k < idx + fuel → ready k = ready' k) →
      pollRQM ready idx fuel = pollRQM ready' idx fuel := by
  intro fuel
  induction fuel with
  | zero => intro idx _; rfl
  | succ n ih =>
    intro idx h
    simp only [pollRQM]
    rw [h idx (le_refl _) (by omega)]
    by_cases hr : ready' idx
    · rw [if_pos hr, if_pos hr]
    · rw [if_neg hr, if_neg hr]
      exact ih (idx + 1) (fun k hk1 hk2 => h k (by omega) (by omega))

theorem pollRQM_exhausted (ready : Nat → Bool) :
    ∀ fuel idx, (∀ k, idx ≤ k → k < idx + fuel → ready k = false) →
      pollRQM ready idx fuel = none := by
  intro fuel
  induction fuel with
  | zero => intro idx _; rfl
  | succ n ih =>
    intro idx h
    simp only [pollRQM]
    rw [h idx (le_refl _) (by omega)]
    simp only [Bool.false_eq_true, if_false]
    exact ih (idx + 1) (fun k hk1 hk2 => h k (by omega) (by omega))

theorem pollRQM_first (ready : Nat → Bool) :
    ∀ fuel idx j, j < fuel → ready (idx + j) = true →
      (∀ m, m < j → ready (idx + m) = false) →
      pollRQM ready idx fuel = some (idx + j) := by
  intro fuel
  induction fuel with
  | zero => intro idx j hj; omega
  | succ n ih =>
    intro idx j hj hr hbefore
    simp only [pollRQM]
    match j, hj with
    | 0, _ =>
      rw [(by omega : idx + 0 = idx)] at hr
      rw [if_pos hr]
      simp
    | j' + 1, hj =>
      have h0 : ready idx = false := by
        have := hbefore 0 (by omega)
        simpa using this
      rw [if_neg (by simp [h0])]
      have := ih (idx + 1) j' (by omega) (by rw [(by omega : idx + 1 + j' = idx + (j' + 1))]; exact hr)
        (fun m hm => by
          rw [(by omega : idx + 1 + m = idx + (m + 1))]
          exact hbefore (m + 1) (by omega))
      rw [this]
      congr 1
      omega

/-- C8: the command sequencer's send-byte and receive-byte primitives
always terminate: each polls the ready bit at most 65536 times (their
result never depends on polls past the wrapping 16-bit counter budget),
and on exhaustion `floppy_write` returns the failure indicator -1 while
`floppy_read` returns the byte 0xFF; when the controller becomes ready
within the budget they return success / the observed byte. -/
theorem c8_sequencer_bounded_poll (ready ready' : Nat → Bool) (v : Nat) (d : Nat → Nat)
    (hagree : ∀ k, k < 65536 → ready k = ready' k) :
    (floppy_write ready v = floppy_write ready' v ∧
     floppy_read ready d = floppy_read ready' d) ∧
    ((∀ k, k < 65536 → ready k = false) →
      floppy_write ready v = -1 ∧ floppy_read ready d = 0xFF) ∧
    (∀ j, j < 65536 → ready j = true → (∀ m, m < j → ready m = false) →
      floppy_write ready v = 0 ∧ floppy_read ready d = d j % 256) := by
  have hcongr := pollRQM_congr ready ready' 65536 0 (fun k _ hk => hagree k (by omega))
  refine ⟨⟨?_, ?_⟩, fun hnone => ?_, fun j hj hr hbefore => ?_⟩
  · unfold floppy_write; rw [hcongr]
  · unfold floppy_read; rw [hcongr]
  · have h := pollRQM_exhausted ready 65536 0 (fun k _ hk => hnone k (by omega))
    constructor
    · unfold floppy_write; rw [h]
    · unfold floppy_read; rw [h]
  · have h := pollRQM_first ready 65536 0 j hj (by simpa using hr)
      (fun m hm => by simpa using hbefore m hm)
    constructor
    · unfold floppy_write; rw [h]
    · unfold floppy_read; rw [h]; simp

/-- Witness for C8 with a never-ready controller. -/
theorem c8_sequencer_bounded_poll_witness :
    (∀ k, k < 65536 → (fun _ => false : Nat → Bool) k = (fun _ => false : Nat → Bool) k) ∧
    (((floppy_write (fun _ => false) 0x08 = floppy_write (fun _ => false) 0x08 ∧
       floppy_read (fun _ => false) (fun _ => 0) = floppy_read (fun _ => false) (fun _ => 0))) ∧
    ((∀ k, k < 65536 → (fun _ => false : Nat → Bool) k = false) →
      floppy_write (fun _ => false) 0x08 = -1 ∧
      floppy_read (fun _ => false) (fun _ => 0) = 0xFF) ∧
    (∀ j, j < 65536 → (fun _ => false : Nat → Bool) j = true →
      (∀ m, m < j → (fun _ => false : Nat → Bool) m = false) →
      floppy_write (fun _ => false) 0x08 = 0 ∧
      floppy_read (fun _ => false) (fun _ => 0) = (fun _ => 0 : Nat → Nat) j % 256)) :=
  ⟨fun _ _ => rfl, c8_sequencer_bounded_poll (fun _ => false) (fun _ => false) 0x08 (fun _ => 0)
    (fun _ _ => rfl)⟩

theorem normTick_normBase_self (x : Nat) : normTick (normBase x) x = 0 := by
  unfold normTick normBase
  omega

/-- C7 counterexample: the raw countdown sequence [0, 1, 2] normalizes to
[0, 65535, 65534], which is not non-decreasing — 16-bit wrap-around breaks
monotonicity for arbitrary sample sequences. -/
theorem c7_counterexample_not_monotone :
    normalizeSamples [0, 1, 2] = [0, 65535, 65534] ∧
    ¬ List.Chain' (· ≤ ·) (normalizeSamples [0, 1, 2]) := by
  have h : normalizeSamples [0, 1, 2] = [0, 65535, 65534] := by decide
  refine ⟨h, ?_⟩
  rw [h]
  simp [List.chain'_cons]

theorem normTick_sample (s0 e : Nat) (hs0 : s0 < 65536) (he : e < 65536) :
    normTick (normBase s0) ((s0 + 65536 - e) % 65536) = e := by
  unfold normTick normBase
  omega

/-- C7 (amended): the normalized sequence always starts at 0; and whenever
the raw countdown samples arise from a sub-2^16 baseline by subtracting
(mod 2^16) a non-decreasing sequence of elapsed tick counts below 2^16 —
i.e. the timer window does not wrap — the normalizer recovers exactly
those elapsed counts, so the output is non-decreasing. -/
theorem c7_normalization_amended (x s0 : Nat) (l E : List Nat)
    (hs0 : s0 < 65536) (hE0 : E.head? = some 0) (hbound : ∀ e ∈ E, e < 65536)
    (hmono : List.Chain' (· ≤ ·) E) :
    (normalizeSamples (x :: l)).head? = some 0 ∧
    normalizeSamples (E.map (fun e => (s0 + 65536 - e) % 65536)) = E ∧
    List.Chain' (· ≤ ·) (normalizeSamples (E.map (fun e => (s0 + 65536 - e) % 65536))) := by
  have hmain : normalizeSamples (E.map (fun e => (s0 + 65536 - e) % 65536)) = E := by
    cases E with
    | nil => rfl
    | cons e0 E' =>
      have he0 : e0 = 0 := by simpa using hE0
      subst he0
      simp only [List.map_cons]
      have hf0 : (s0 + 65536 - 0) % 65536 = s0 := by omega
      rw [hf0]
      simp only [normalizeSamples, List.map_cons, List.map_map]
      rw [normTick_normBase_self]
      have hpt : ∀ e ∈ E',
          (normTick (normBase s0) ∘ fun e => (s0 + 65536 - e) % 65536) e = e := by
        intro e he
        exact normTick_sample s0 e hs0 (hbound e (List.mem_cons_of_mem _ he))
      rw [List.map_congr_left hpt, List.map_id']
  refine ⟨?_, hmain, by rw [hmain]; exact hmono⟩
  simp [normalizeSamples, normTick_normBase_self]

/-- Witness for C7 (amended) at the elapsed sequence [0, 1] and baseline
sample 100. -/
theorem c7_normalization_amended_witness :
    ((100 : Nat) < 65536) ∧ (([0, 1] : List Nat).head? = some 0) ∧
    (∀ e ∈ ([0, 1] : List Nat), e < 65536) ∧
    List.Chain' (· ≤ ·) ([0, 1] : List Nat) ∧
    ((normalizeSamples (42 :: [7])).head? = some 0 ∧
     normalizeSamples (([0, 1] : List Nat).map (fun e => (100 + 65536 - e) % 65536)) = [0, 1] ∧
     List.Chain' (· ≤ ·)
       (normalizeSamples (([0, 1] : List Nat).map (fun e => (100 + 65536 - e) % 65536)))) :=
  ⟨by decide, by decide, by decide, List.chain'_pair.mpr (by decide),
    c7_normalization_amended 42 100 [7] [0, 1] (by decide) (by decide) (by decide)
      (List.chain'_pair.mpr (by decide))⟩

/-- C1 (code bug): the track record that `mode_low_track_write` emits for
a successful 4096-byte read of track 5 side 0 with timing disabled is the
4-byte little-endian count [0x00, 0x10, 0x00, 0x00] followed by the 4096
data bytes, with NO preceding [track][side] bytes; `mode_low_finish`
appends exactly these records and nothing else, as the concrete
one-track run shows (its whole file is the 4-byte record, not 6 bytes). -/
theorem c1_multitrack_record_lacks_track_side :
    (mode_low_track_write c1State).2
      = [0x00, 0x10, 0x00, 0x00] ++ List.replicate 4096 0xAA ∧
    (mode_low_track_write c1State).2.length = 4100 ∧
    (mode_low_track_write c1State).2.take 2 = [0x00, 0x10] ∧
    (mode_low_finish (fun _ _ => c1OpenEnv) (fun _ _ => c1ReadEnv) 0 1 1 c1Start).2
      = [[0x00, 0x00, 0x00, 0x00]] := by
  have hdata : (List.range 4096).map (fun _ => (0xAA : Nat)) = List.replicate 4096 0xAA := by
    rw [List.map_const', List.length_range]
  have hrec : (mode_low_track_write c1State).2
      = [0x00, 0x10, 0x00, 0x00] ++ List.replicate 4096 0xAA := by
    rw [show (mode_low_track_write c1State).2
        = le32 4096 ++ (List.range 4096).map (fun _ => (0xAA : Nat)) from rfl]
    rw [hdata]
    rfl
  refine ⟨hrec, ?_, ?_, ?_⟩
  · rw [hrec]
    simp only [List.length_append, List.length_replicate, List.length_cons, List.length_nil]
  · rw [hrec]; rfl
  · rfl

theorem waitRun_flag_false_of_none :
    ∀ (rs : List WaitRound) (ts : Int), (waitRun rs ts).1 = none →
      ∀ x ∈ rs, x.flagCleared = false := by
  intro rs
  induction rs with
  | nil => intro ts _ x hx; cases hx
  | cons r rest ih =>
    intro ts h x hx
    by_cases hf : r.flagCleared
    · simp [waitRun, hf] at h
    · rcases List.mem_cons.mp hx with hx | hmem
      · rw [hx]; exact Bool.eq_false_iff.mpr hf
      · by_cases hts : ts = 0
        · exact ih r.clock (by simpa [waitRun, hf, hts] using h) x hmem
        · by_cases hdl : LOW_TIMEOUT ≤ r.clock - ts
          · simp [waitRun, hf, hts, hdl] at h
          · exact ih ts (by simpa [waitRun, hf, hts, hdl] using h) x hmem

theorem waitRun_ts_src :
    ∀ (rs : List WaitRound) (ts : Int),
      (waitRun rs ts).2 = ts ∨ ∃ x ∈ rs, (waitRun rs ts).2 = x.clock := by
  intro rs
  induction rs with
  | nil => intro ts; left; rfl
  | cons r rest ih =>
    intro ts
    by_cases hf : r.flagCleared
    · left; simp [waitRun, hf]
    · by_cases hts : ts = 0
      · rcases ih r.clock with h | ⟨x, hx, h⟩
        · right; exact ⟨r, List.mem_cons_self _ _, by simpa [waitRun, hf, hts] using h⟩
        · right; exact ⟨x, List.mem_cons_of_mem _ hx, by simpa [waitRun, hf, hts] using h⟩
      · by_cases hdl : LOW_TIMEOUT ≤ r.clock - ts
        · left; simp [waitRun, hf, hts, hdl]
        · rcases ih ts with h | ⟨x, hx, h⟩
          · left; simpa [waitRun, hf, hts, hdl] using h
          · right; exact ⟨x, List.mem_cons_of_mem _ hx, by simpa [waitRun, hf, hts, hdl] using h⟩

theorem waitRun_success_iff :
    ∀ (rs : List WaitRound) (ts : Int),
      (waitRun rs ts).1 = some 0 ↔
        ∃ pre r post, rs = pre ++ r :: post ∧ (waitRun pre ts).1 = none ∧
          r.flagCleared = true := by
  intro rs
  induction rs with
  | nil =>
    intro ts
    constructor
    · intro h; simp [waitRun] at h
    · rintro ⟨pre, r, post, habs, -, -⟩
      exact absurd habs (by simp)
  | cons r rest ih =>
    intro ts
    by_cases hf : r.flagCleared
    · constructor
      · intro _
        exact ⟨[], r, rest, rfl, rfl, hf⟩
      · intro _
        simp [waitRun, hf]
    · constructor
      · intro h
        by_cases hts : ts = 0
        · obtain ⟨pre, r', post, hdec, hnone, hfc⟩ :=
            (ih r.clock).mp (by simpa [waitRun, hf, hts] using h)
          exact ⟨r :: pre, r', post, by rw [hdec]; rfl,
            by simpa [waitRun, hf, hts] using hnone, hfc⟩
        · by_cases hdl : LOW_TIMEOUT ≤ r.clock - ts
          · simp [waitRun, hf, hts, hdl] at h
          · obtain ⟨pre, r', post, hdec, hnone, hfc⟩ :=
              (ih ts).mp (by simpa [waitRun, hf, hts, hdl] using h)
            exact ⟨r :: pre, r', post, by rw [hdec]; rfl,
              by simpa [waitRun, hf, hts, hdl] using hnone, hfc⟩
      · rintro ⟨pre, r', post, hdec, hnone, hfc⟩
        cases pre with
        | nil =>
          obtain ⟨hr, _⟩ := List.cons_eq_cons.mp hdec
          rw [hr] at hf
          exact absurd hfc (by simp [hf])
        | cons q pre' =>
          obtain ⟨hq, hrest⟩ := List.cons_eq_cons.mp hdec
          subst hq
          subst hrest
          by_cases hts : ts = 0
          · have hnone' : (waitRun pre' r.clock).1 = none := by
              simpa [waitRun, hf, hts] using hnone
            have := (ih r.clock).mpr ⟨pre', r', post, rfl, hnone', hfc⟩
            simpa [waitRun, hf, hts] using this
          · by_cases hdl : LOW_TIMEOUT ≤ r.clock - ts
            · simp [waitRun, hf, hts, hdl] at hnone
            · have hnone' : (waitRun pre' ts).1 = none := by
                simpa [waitRun, hf, hts, hdl] using hnone
              have := (ih ts).mpr ⟨pre', r', post, rfl, hnone', hfc⟩
              simpa [waitRun, hf, hts, hdl] using this

theorem waitRun_timeout_spec :
    ∀ (rs : List WaitRound) (ts : Int), (waitRun rs ts).1 = some (-1) →
      ∃ pre r post, rs = pre ++ r :: post ∧ (waitRun pre ts).1 = none ∧
        r.flagCleared = false ∧ (waitRun pre ts).2 ≠ 0 ∧
        LOW_TIMEOUT ≤ r.clock - (waitRun pre ts).2 := by
  intro rs
  induction rs with
  | nil => intro ts h; simp [waitRun] at h
  | cons r rest ih =>
    intro ts h
    by_cases hf : r.flagCleared
    · simp [waitRun, hf] at h
    · by_cases hts : ts = 0
      · obtain ⟨pre, r', post, hdec, hnone, hfc, hnz, hdl⟩ :=
          ih r.clock (by simpa [waitRun, hf, hts] using h)
        refine ⟨r :: pre, r', post, by rw [hdec]; rfl, ?_, hfc, ?_, ?_⟩
        · simpa [waitRun, hf, hts] using hnone
        · simpa [waitRun, hf, hts] using hnz
        · simpa [waitRun, hf, hts] using hdl
      · by_cases hdl : LOW_TIMEOUT ≤ r.clock - ts
        · exact ⟨[], r, rest, rfl, rfl, Bool.eq_false_iff.mpr hf,
            by simpa [waitRun] using hts, by simpa [waitRun] using hdl⟩
        · obtain ⟨pre, r', post, hdec, hnone, hfc, hnz, hdl'⟩ :=
            ih ts (by simpa [waitRun, hf, hts, hdl] using h)
          refine ⟨r :: pre, r', post, by rw [hdec]; rfl, ?_, hfc, ?_, ?_⟩
          · simpa [waitRun, hf, hts, hdl] using hnone
          · simpa [waitRun, hf, hts, hdl] using hnz
          · simpa [waitRun, hf, hts, hdl] using hdl'

/-- C6: Wait-With-Timeout returns success exactly when some polling round
observes the Completion Flag cleared while the loop is still running (and
it returns at that round, whatever comes after); and it returns timeout
only when, with the flag still set in every round, the clock has advanced
by at least `LOW_TIMEOUT` ticks past the baseline sample taken in an
earlier round — independent of how many polling rounds occurred. -/
theorem c6_wait_success_and_deadline (rounds : List WaitRound) :
    (floppy_irq_wait_timeout rounds = some 0 ↔
      ∃ pre r post, rounds = pre ++ r :: post ∧ (waitRun pre 0).1 = none ∧
        r.flagCleared = true) ∧
    (floppy_irq_wait_timeout rounds = some (-1) →
      ∃ pre r post, rounds = pre ++ r :: post ∧ (waitRun pre 0).1 = none ∧
        (∀ x ∈ pre, x.flagCleared = false) ∧ r.flagCleared = false ∧
        (∃ x ∈ pre, (waitRun pre 0).2 = x.clock) ∧
        LOW_TIMEOUT ≤ r.clock - (waitRun pre 0).2) := by
  constructor
  · exact waitRun_success_iff rounds 0
  · intro h
    obtain ⟨pre, r, post, hdec, hnone, hfc, hnz, hdl⟩ := waitRun_timeout_spec rounds 0 h
    refine ⟨pre, r, post, hdec, hnone, waitRun_flag_false_of_none pre 0 hnone, hfc, ?_, hdl⟩
    rcases waitRun_ts_src pre 0 with h0 | hsrc
    · exact absurd h0 hnz
    · exact hsrc

/-- Witness for C6 on the one-round trace whose flag is already clear. -/
theorem c6_wait_success_and_deadline_witness :
    ((floppy_irq_wait_timeout [⟨true, 0⟩] = some 0 ↔
      ∃ pre r post, ([⟨true, 0⟩] : List WaitRound) = pre ++ r :: post ∧
        (waitRun pre 0).1 = none ∧ r.flagCleared = true) ∧
    (floppy_irq_wait_timeout [⟨true, 0⟩] = some (-1) →
      ∃ pre r post, ([⟨true, 0⟩] : List WaitRound) = pre ++ r :: post ∧
        (waitRun pre 0).1 = none ∧
        (∀ x ∈ pre, x.flagCleared = false) ∧ r.flagCleared = false ∧
        (∃ x ∈ pre, (waitRun pre 0).2 = x.clock) ∧
        LOW_TIMEOUT ≤ r.clock - (waitRun pre 0).2)) :=
  c6_wait_success_and_deadline [⟨true, 0⟩]

theorem calLoop_frame (env : OpenEnv) :
    ∀ fuel i st st' oe, calLoop env i fuel st = (st', oe) →
      st'.host_vector = st.host_vector ∧ st'.host_mask = st.host_mask ∧
      st'.savedVector = st.savedVector ∧ st'.savedMask = st.savedMask ∧
      st'.dor = st.dor ∧ st'.lowpos = st.lowpos ∧ st'.lowdata = st.lowdata ∧
      st'.lowtime = st.lowtime ∧ st'.lowtime_on = st.lowtime_on := by
  intro fuel
  induction fuel with
  | zero =>
    intro i st st' oe h
    obtain ⟨rfl, -⟩ := Prod.mk.injEq .. ▸ h
    exact ⟨rfl, rfl, rfl, rfl, rfl, rfl, rfl, rfl, rfl⟩
  | succ n ih =>
    intro i st st' oe h
    by_cases htm : env.calTimeout i
    · simp only [calLoop, htm, if_true] at h
      obtain ⟨rfl, -⟩ := Prod.mk.injEq .. ▸ h
      exact ⟨rfl, rfl, rfl, rfl, rfl, rfl, rfl, rfl, rfl⟩
    · simp only [calLoop, htm, Bool.false_eq_true, if_false] at h
      by_cases hz : env.calCyl i = 0
      · simp only [hz, if_pos] at h
        obtain ⟨rfl, -⟩ := Prod.mk.injEq .. ▸ h
        exact ⟨rfl, rfl, rfl, rfl, rfl, rfl, rfl, rfl, rfl⟩
      · rw [if_neg hz] at h
        exact ih (i + 1) { st with floppy_c := env.calCyl i } st' oe h

theorem calLoop_some_eq (env : OpenEnv) :
    ∀ fuel i st st' e, calLoop env i fuel st = (st', some e) → e = LOW_CALIBRATE_TIMEOUT := by
  intro fuel
  induction fuel with
  | zero =>
    intro i st st' e h
    injection h with h1 h2
    exact Option.noConfusion h2
  | succ n ih =>
    intro i st st' e h
    by_cases htm : env.calTimeout i
    · simp only [calLoop, htm, if_true] at h
      injection h with h1 h2
      injection h2 with h3
      exact h3.symm
    · simp only [calLoop, htm, Bool.false_eq_true, if_false] at h
      by_cases hz : env.calCyl i = 0
      · simp only [hz, if_pos] at h
        injection h with h1 h2
        exact Option.noConfusion h2
      · rw [if_neg hz] at h
        exact ih (i + 1) { st with floppy_c := env.calCyl i } st' e h

theorem calLoop_none_all (env : OpenEnv) :
    ∀ fuel i st st', calLoop env i fuel st = (st', none) → st'.floppy_c ≠ 0 →
      ∀ k, k < fuel → env.calCyl (i + k) ≠ 0 := by
  intro fuel
  induction fuel with
  | zero => intro i st st' _ _ k hk; omega
  | succ n ih =>
    intro i st st' h hc k hk
    by_cases htm : env.calTimeout i
    · simp only [calLoop, htm, if_true] at h
      injection h with h1 h2
      exact Option.noConfusion h2
    · simp only [calLoop, htm, Bool.false_eq_true, if_false] at h
      by_cases hz : env.calCyl i = 0
      · simp only [hz, if_pos] at h
        injection h with h1 h2
        rw [← h1] at hc
        exact absurd rfl hc
      · rw [if_neg hz] at h
        cases k with
        | zero => simpa using hz
        | succ k' =>
          have := ih (i + 1) { st with floppy_c := env.calCyl i } st' h hc k' (by omega)
          rw [(by omega : i + 1 + k' = i + (k' + 1))] at this
          exact this

theorem calLoop_success (env : OpenEnv) :
    ∀ fuel i st, (∀ k, k < fuel → env.calTimeout (i + k) = false) →
      (∃ k, k < fuel ∧ env.calCyl (i + k) = 0) →
      ∃ st', calLoop env i fuel st = (st', none) ∧ st'.floppy_c = 0 := by
  intro fuel
  induction fuel with
  | zero => intro i st _ hex; obtain ⟨k, hk, -⟩ := hex; omega
  | succ n ih =>
    intro i st htm hex
    have htm0 : env.calTimeout i = false := by
      have := htm 0 (by omega)
      simpa using this
    by_cases hz : env.calCyl i = 0
    · refine ⟨{ st with floppy_c := env.calCyl i }, ?_, by simpa using hz⟩
      simp only [calLoop, htm0, Bool.false_eq_true, if_false, hz, if_pos]
    · obtain ⟨k, hk, hck⟩ := hex
      have hk0 : k ≠ 0 := by
        intro h0
        rw [h0] at hck
        simp only [Nat.add_zero] at hck
        exact hz hck
      obtain ⟨st', hrec, hc⟩ := ih (i + 1) { st with floppy_c := env.calCyl i }
        (fun m hm => by
          rw [(by omega : i + 1 + m = i + (m + 1))]
          exact htm (m + 1) (by omega))
        ⟨k - 1, by omega, by rw [(by omega : i + 1 + (k - 1) = i + k)]; exact hck⟩
      refine ⟨st', ?_, hc⟩
      simp only [calLoop, htm0, Bool.false_eq_true, if_false, if_neg hz]
      exact hrec

theorem seekLoop_frame (env : ReadEnv) (track : Nat) :
    ∀ fuel i st st' oe, seekLoop env track i fuel st = (st', oe) →
      st'.host_vector = st.host_vector ∧ st'.host_mask = st.host_mask ∧
      st'.savedVector = st.savedVector ∧ st'.savedMask = st.savedMask ∧
      st'.dor = st.dor ∧ st'.lowpos = st.lowpos ∧ st'.lowdata = st.lowdata ∧
      st'.lowtime = st.lowtime ∧ st'.lowtime_on = st.lowtime_on := by
  intro fuel
  induction fuel with
  | zero =>
    intro i st st' oe h
    injection h with h1 h2
    subst h1
    exact ⟨rfl, rfl, rfl, rfl, rfl, rfl, rfl, rfl, rfl⟩
  | succ n ih =>
    intro i st st' oe h
    by_cases htm : env.seekTimeout i
    · simp only [seekLoop, htm, if_true] at h
      injection h with h1 h2
      subst h1
      exact ⟨rfl, rfl, rfl, rfl, rfl, rfl, rfl, rfl, rfl⟩
    · simp only [seekLoop, htm, Bool.false_eq_true, if_false] at h
      by_cases hz : env.seekCyl i = track
      · simp only [hz, if_pos] at h
        injection h with h1 h2
        subst h1
        exact ⟨rfl, rfl, rfl, rfl, rfl, rfl, rfl, rfl, rfl⟩
      · rw [if_neg hz] at h
        exact ih (i + 1) { st with floppy_c := env.seekCyl i } st' oe h

theorem seekLoop_some_eq (env : ReadEnv) (track : Nat) :
    ∀ fuel i st st' e, seekLoop env track i fuel st = (st', some e) → e = LOW_SEEK_TIMEOUT := by
  intro fuel
  induction fuel with
  | zero =>
    intro i st st' e h
    injection h with h1 h2
    exact Option.noConfusion h2
  | succ n ih =>
    intro i st st' e h
    by_cases htm : env.seekTimeout i
    · simp only [seekLoop, htm, if_true] at h
      injection h with h1 h2
      injection h2 with h3
      exact h3.symm
    · simp only [seekLoop, htm, Bool.false_eq_true, if_false] at h
      by_cases hz : env.seekCyl i = track
      · simp only [hz, if_pos] at h
        injection h with h1 h2
        exact Option.noConfusion h2
      · rw [if_neg hz] at h
        exact ih (i + 1) { st with floppy_c := env.seekCyl i } st' e h

theorem seekLoop_none_all (env : ReadEnv) (track : Nat) :
    ∀ fuel i st st', seekLoop env track i fuel st = (st', none) → st'.floppy_c ≠ track →
      ∀ k, k < fuel → env.seekCyl (i + k) ≠ track := by
  intro fuel
  induction fuel with
  | zero => intro i st st' _ _ k hk; omega
  | succ n ih =>
    intro i st st' h hc k hk
    by_cases htm : env.seekTimeout i
    · simp only [seekLoop, htm, if_true] at h
      injection h with h1 h2
      exact Option.noConfusion h2
    · simp only [seekLoop, htm, Bool.false_eq_true, if_false] at h
      by_cases hz : env.seekCyl i = track
      · simp only [hz, if_pos] at h
        injection h with h1 h2
        rw [← h1] at hc
        exact absurd rfl hc
      · rw [if_neg hz] at h
        cases k with
        | zero => simpa using hz
        | succ k' =>
          have := ih (i + 1) { st with floppy_c := env.seekCyl i } st' h hc k' (by omega)
          rw [(by omega : i + 1 + k' = i + (k' + 1))] at this
          exact this

theorem seekLoop_success (env : ReadEnv) (track : Nat) :
    ∀ fuel i st, (∀ k, k < fuel → env.seekTimeout (i + k) = false) →
      (∃ k, k < fuel ∧ env.seekCyl (i + k) = track) →
      ∃ st', seekLoop env track i fuel st = (st', none) ∧ st'.floppy_c = track := by
  intro fuel
  induction fuel with
  | zero => intro i st _ hex; obtain ⟨k, hk, -⟩ := hex; omega
  | succ n ih =>
    intro i st htm hex
    have htm0 : env.seekTimeout i = false := by
      have := htm 0 (by omega)
      simpa using this
    by_cases hz : env.seekCyl i = track
    · refine ⟨{ st with floppy_c := env.seekCyl i }, ?_, by simpa using hz⟩
      simp only [seekLoop, htm0, Bool.false_eq_true, if_false, hz, if_pos]
    · obtain ⟨k, hk, hck⟩ := hex
      have hk0 : k ≠ 0 := by
        intro h0
        rw [h0] at hck
        simp only [Nat.add_zero] at hck
        exact hz hck
      obtain ⟨st', hrec, hc⟩ := ih (i + 1) { st with floppy_c := env.seekCyl i }
        (fun m hm => by
          rw [(by omega : i + 1 + m = i + (m + 1))]
          exact htm (m + 1) (by omega))
        ⟨k - 1, by omega, by rw [(by omega : i + 1 + (k - 1) = i + k)]; exact hck⟩
      refine ⟨st', ?_, hc⟩
      simp only [seekLoop, htm0, Bool.false_eq_true, if_false, if_neg hz]
      exact hrec

theorem captureByte_lowpos (st : SessState) (d t : Nat) :
    (captureByte st d t).lowpos
      = if st.lowpos < MAX_TRACK_SIZE then st.lowpos + 1 else st.lowpos := by
  unfold captureByte
  split_ifs <;> rfl

theorem captureBytes_pos_le :
    ∀ (l : List (Nat × Nat)) (st : SessState), st.lowpos ≤ (captureBytes st l).lowpos := by
  intro l
  induction l with
  | nil => intro st; exact le_refl _
  | cons p rest ih =>
    intro st
    obtain ⟨d, t⟩ := p
    have h1 : st.lowpos ≤ (captureByte st d t).lowpos := by
      rw [captureByte_lowpos]
      split_ifs <;> omega
    exact le_trans h1 (ih (captureByte st d t))

theorem captureBytes_spec :
    ∀ (l : List (Nat × Nat)) (st : SessState), st.lowpos + l.length ≤ MAX_TRACK_SIZE →
      (captureBytes st l).lowpos = st.lowpos + l.length ∧
      (∀ j, j < l.length →
        (captureBytes st l).lowdata (st.lowpos + j) = (l.getD j (0, 0)).1 % 256) ∧
      (∀ k, k < st.lowpos → (captureBytes st l).lowdata k = st.lowdata k) ∧
      (captureBytes st l).lowtime_on = st.lowtime_on ∧
      (captureBytes st l).floppy_c = st.floppy_c := by
  intro l
  induction l with
  | nil =>
    intro st _
    exact ⟨rfl, fun j hj => by simp at hj, fun k _ => rfl, rfl, rfl⟩
  | cons p rest ih =>
    intro st h
    obtain ⟨d, t⟩ := p
    have hlen : st.lowpos + (rest.length + 1) ≤ MAX_TRACK_SIZE := by
      simpa using h
    have hlt : st.lowpos < MAX_TRACK_SIZE := by omega
    have hcb : captureByte st d t
        = { st with
            lowdata := Function.update st.lowdata st.lowpos (d % 256)
            lowtime := if st.lowtime_on ≠ 0 then
                         Function.update st.lowtime st.lowpos (t % 65536)
                       else st.lowtime
            lowpos := st.lowpos + 1 } := by
      unfold captureByte
      rw [if_pos hlt]
    have hstep : captureBytes st ((d, t) :: rest) = captureBytes (captureByte st d t) rest := rfl
    obtain ⟨ih1, ih2, ih3, ih4, ih5⟩ := ih (captureByte st d t)
      (by rw [hcb]; show st.lowpos + 1 + rest.length ≤ MAX_TRACK_SIZE; omega)
    rw [hstep]
    refine ⟨?_, ?_, ?_, ?_, ?_⟩
    · rw [ih1, hcb]
      simp only [List.length_cons]
      omega
    · intro j hj
      cases j with
      | zero =>
        have hk := ih3 st.lowpos (by rw [hcb]; simp)
        rw [Nat.add_zero, hk, hcb]
        simp only [Function.update_same]
        rfl
      | succ j' =>
        have hj' : j' < rest.length := by simpa using hj
        have hthis := ih2 j' hj'
        have hpos' : (captureByte st d t).lowpos = st.lowpos + 1 := by rw [hcb]
        rw [(by omega : st.lowpos + (j' + 1) = st.lowpos + 1 + j')]
        rw [show (((d, t) :: rest).getD (j' + 1) (0, 0)) = rest.getD j' (0, 0) from rfl]
        rw [← hpos']
        exact hthis
    · intro k hk
      have h1 := ih3 k (by rw [hcb]; show k < st.lowpos + 1; omega)
      rw [h1, hcb]
      show Function.update st.lowdata st.lowpos (d % 256) k = st.lowdata k
      exact Function.update_noteq (by omega) _ _
    · rw [ih4, hcb]
    · rw [ih5, hcb]

theorem readLoop_some_eq (env : ReadEnv) :
    ∀ fuel i st st' e, readLoop env i fuel st = (st', some e) → e = LOW_TRACK_TIMEOUT := by
  intro fuel
  induction fuel with
  | zero =>
    intro i st st' e h
    injection h with h1 h2
    exact Option.noConfusion h2
  | succ n ih =>
    intro i st st' e h
    by_cases hp : st.lowpos = 0
    · simp only [readLoop, hp, if_pos] at h
      by_cases htm : env.readTimeout i
      · simp only [htm, if_true] at h
        injection h with h1 h2
        injection h2 with h3
        exact h3.symm
      · simp only [htm, Bool.false_eq_true, if_false] at h
        exact ih (i + 1) _ st' e h
    · simp only [readLoop, hp, if_neg, if_false] at h
      injection h with h1 h2
      exact Option.noConfusion h2

theorem readLoop_stop (env : ReadEnv) (i fuel : Nat) (st : SessState) (h : st.lowpos ≠ 0) :
    readLoop env i fuel st = (st, none) := by
  cases fuel with
  | zero => rfl
  | succ n => simp [readLoop, h]

theorem readLoop_empty_eq (env : ReadEnv) :
    ∀ fuel i st, st.lowpos = 0 →
      (∀ k, k < fuel → env.readTimeout (i + k) = false ∧ env.readCapture (i + k) = []) →
      ∃ c, readLoop env i fuel st = ({ st with floppy_c := c }, none) := by
  intro fuel
  induction fuel with
  | zero =>
    intro i st _ _
    exact ⟨st.floppy_c, rfl⟩
  | succ n ih =>
    intro i st hp hk
    obtain ⟨htm0, hcap0⟩ : env.readTimeout i = false ∧ env.readCapture i = [] := by
      have := hk 0 (by omega)
      simpa using this
    obtain ⟨c, hrec⟩ := ih (i + 1) { st with floppy_c := env.readResultC i } hp
      (fun m hm => by
        rw [(by omega : i + 1 + m = i + (m + 1))]
        exact hk (m + 1) (by omega))
    refine ⟨c, ?_⟩
    simp only [readLoop, hp, if_pos, hcap0, htm0, Bool.false_eq_true, if_false, captureBytes]
    rw [hp] at hrec
    exact hrec

theorem readLoop_first_eq (env : ReadEnv) (fuel : Nat) (st : SessState)
    (hst : st.lowpos = 0) (hfuel : 0 < fuel) (htm : env.readTimeout 0 = false)
    (hne : env.readCapture 0 ≠ []) :
    readLoop env 0 fuel st
      = ({ captureBytes st (env.readCapture 0) with floppy_c := env.readResultC 0 }, none) := by
  have hpos : (captureBytes st (env.readCapture 0)).lowpos ≠ 0 := by
    rcases hl : env.readCapture 0 with - | ⟨⟨d, t⟩, rest⟩
    · exact absurd hl hne
    · have h1 : (captureByte st d t).lowpos = st.lowpos + 1 := by
        unfold captureByte
        rw [if_pos (by rw [hst]; decide)]

      have h2 := captureBytes_pos_le rest (captureByte st d t)
      rw [h1, hst] at h2
      have hstep : captureBytes st ((d, t) :: rest) = captureBytes (captureByte st d t) rest := rfl
      rw [hstep]
      omega
  cases fuel with
  | zero => omega
  | succ n =>
    simp only [readLoop, hst, if_pos, htm, Bool.false_eq_true, if_false]
    exact readLoop_stop env (0 + 1) n _ hpos

/-- C3: `low_close` restores the saved interrupt vector and PIC mask and
puts the digital output register back to the reset/motor-off pattern
`0x00 | device`; and every failing return of `low_open` (reset timeout,
calibrate timeout, calibrate failure) has performed `low_close`, so the
host interrupt vector and mask equal their values from before the open. -/
theorem c3_open_failure_restores_host (env : OpenEnv) (device : Nat) (st0 : SessState)
    (h : (low_open env device st0).2 ≠ LOW_SUCCESS) :
    (low_open env device st0).1.host_vector = st0.host_vector ∧
    (low_open env device st0).1.host_mask = st0.host_mask ∧
    (low_open env device st0).1.dor = 0x00 ||| device ∧
    ∀ st : SessState, (low_close device st).host_vector = st.savedVector ∧
      (low_close device st).host_mask = st.savedMask ∧
      (low_close device st).dor = 0x00 ||| device := by
  have hcl : ∀ st : SessState, (low_close device st).host_vector = st.savedVector ∧
      (low_close device st).host_mask = st.savedMask ∧
      (low_close device st).dor = 0x00 ||| device := fun st => ⟨rfl, rfl, rfl⟩
  refine ⟨?_, ?_, ?_, hcl⟩ <;>
  · unfold low_open at h ⊢
    by_cases hrt : env.resetTimeout
    · simp only [hrt, if_true] at h ⊢
      rfl
    · simp only [hrt, Bool.false_eq_true, if_false] at h ⊢
      split at h
      · rename_i st1 e heq
        obtain ⟨f1, f2, f3, f4, -⟩ := calLoop_frame env SEEK_RETRIES 0 _ st1 (some e) heq
        first
          | exact f3
          | exact f4
          | rfl
      · rename_i st1 heq
        by_cases hz : st1.floppy_c ≠ 0
        · rw [if_pos hz] at h ⊢
          obtain ⟨f1, f2, f3, f4, -⟩ := calLoop_frame env SEEK_RETRIES 0 _ st1 none heq
          first
            | exact f3
            | exact f4
            | rfl
        · rw [if_neg hz] at h
          exact absurd rfl h

/-- Witness for C3: a reset-timeout environment fails the open and leaves
the host vector and mask as they were. -/
theorem c3_open_failure_restores_host_witness :
    ((low_open c3OpenEnv 0 c3Start).2 ≠ LOW_SUCCESS) ∧
    ((low_open c3OpenEnv 0 c3Start).1.host_vector = c3Start.host_vector ∧
     (low_open c3OpenEnv 0 c3Start).1.host_mask = c3Start.host_mask ∧
     (low_open c3OpenEnv 0 c3Start).1.dor = 0x00 ||| 0 ∧
     ∀ st : SessState, (low_close 0 st).host_vector = st.savedVector ∧
       (low_close 0 st).host_mask = st.savedMask ∧
       (low_close 0 st).dor = 0x00 ||| 0) :=
  ⟨by decide, c3_open_failure_restores_host c3OpenEnv 0 c3Start (by decide)⟩

theorem calLoop_success_eq (env : OpenEnv) (fuel i : Nat) (st st' : SessState) (oe : Option Nat)
    (heq : calLoop env i fuel st = (st', oe))
    (htm : ∀ k, k < fuel → env.calTimeout (i + k) = false)
    (hex : ∃ k, k < fuel ∧ env.calCyl (i + k) = 0) :
    oe = none ∧ st'.floppy_c = 0 := by
  obtain ⟨st'', hs, hc⟩ := calLoop_success env fuel i st htm hex
  rw [heq] at hs
  injection hs with h1 h2
  subst h1
  exact ⟨h2, hc⟩

theorem seekLoop_success_eq (env : ReadEnv) (track fuel i : Nat) (st st' : SessState)
    (oe : Option Nat) (heq : seekLoop env track i fuel st = (st', oe))
    (htm : ∀ k, k < fuel → env.seekTimeout (i + k) = false)
    (hex : ∃ k, k < fuel ∧ env.seekCyl (i + k) = track) :
    oe = none ∧ st'.floppy_c = track := by
  obtain ⟨st'', hs, hc⟩ := seekLoop_success env track fuel i st htm hex
  rw [heq] at hs
  injection hs with h1 h2
  subst h1
  exact ⟨h2, hc⟩

/-- C4: calibrate and seek report success on any run whose
sense-interrupt-status cylinder matches the goal within the retry budget,
and their failure codes arise only when the cylinder never matches across
every attempt; in particular a seek whose attempt 1 mismatches and whose
attempt 2 matches does not report a seek failure or seek timeout. -/
theorem c4_retry_until_cylinder_match (oenv : OpenEnv) (renv : ReadEnv)
    (device track : Nat) (s u : SessState) :
    ((low_open oenv device s).2 = LOW_CALIBRATE →
      ∀ i, i < SEEK_RETRIES → oenv.calCyl i ≠ 0) ∧
    (oenv.resetTimeout = false → (∀ i, i < SEEK_RETRIES → oenv.calTimeout i = false) →
      (∃ i, i < SEEK_RETRIES ∧ oenv.calCyl i = 0) →
      (low_open oenv device s).2 = LOW_SUCCESS) ∧
    ((low_read_track renv track u).2 = LOW_SEEK →
      ∀ i, i < SEEK_RETRIES → renv.seekCyl i ≠ track) ∧
    ((∀ i, i < SEEK_RETRIES → renv.seekTimeout i = false) →
      renv.seekCyl 0 ≠ track → renv.seekCyl 1 = track →
      (low_read_track renv track u).2 ≠ LOW_SEEK ∧
      (low_read_track renv track u).2 ≠ LOW_SEEK_TIMEOUT) := by
  refine ⟨?_, ?_, ?_, ?_⟩
  · -- CalibrateFailure only when the cylinder never reads 0
    intro hcal i hi
    unfold low_open at hcal
    by_cases hrt : oenv.resetTimeout
    · simp only [hrt, if_true] at hcal
      exact absurd (show LOW_RESET = LOW_CALIBRATE from hcal) (by decide)
    · simp only [hrt, Bool.false_eq_true, if_false] at hcal
      split at hcal
      · rename_i st1 e heq
        have he := calLoop_some_eq oenv SEEK_RETRIES 0 _ st1 e heq
        rw [he] at hcal
        exact absurd (show LOW_CALIBRATE_TIMEOUT = LOW_CALIBRATE from hcal) (by decide)
      · rename_i st1 heq
        by_cases hz : st1.floppy_c ≠ 0
        · have := calLoop_none_all oenv SEEK_RETRIES 0 _ st1 heq hz i hi
          simpa using this
        · rw [if_neg hz] at hcal
          exact absurd (show LOW_SUCCESS = LOW_CALIBRATE from hcal) (by decide)
  · -- success as soon as some attempt reads cylinder 0
    intro hrt htm hex
    unfold low_open
    simp only [hrt, Bool.false_eq_true, if_false]
    split
    · rename_i st1 e heq
      have := calLoop_success_eq oenv SEEK_RETRIES 0 _ st1 (some e) heq
        (fun k hk => by simpa using htm k hk)
        (by obtain ⟨i, hi, hci⟩ := hex; exact ⟨i, hi, by simpa using hci⟩)
      exact Option.noConfusion this.1
    · rename_i st1 heq
      have hc := (calLoop_success_eq oenv SEEK_RETRIES 0 _ st1 none heq
        (fun k hk => by simpa using htm k hk)
        (by obtain ⟨i, hi, hci⟩ := hex; exact ⟨i, hi, by simpa using hci⟩)).2
      rw [if_neg (not_not_intro hc)]
  · -- SeekFailure only when the cylinder never matches
    intro hs i hi
    unfold low_read_track at hs
    split at hs
    · rename_i st1 e heq
      have he := seekLoop_some_eq renv track SEEK_RETRIES 0 _ st1 e heq
      rw [he] at hs
      exact absurd (show LOW_SEEK_TIMEOUT = LOW_SEEK from hs) (by decide)
    · rename_i st1 heq
      by_cases hz : st1.floppy_c ≠ track
      · have := seekLoop_none_all renv track SEEK_RETRIES 0 _ st1 heq hz i hi
        simpa using this
      · rw [if_neg hz] at hs
        replace hs :
            (match readLoop renv 0 READ_RETRIES ({ st1 with lowpos := 0 } : SessState) with
              | (st, some e) => (st, e)
              | (st, none) =>
                if st.lowpos < 1 then (st, LOW_EMPTY) else (st, LOW_SUCCESS)).2 = LOW_SEEK := hs
        split at hs
        · rename_i st3 e heq2
          have he := readLoop_some_eq renv READ_RETRIES 0 _ st3 e heq2
          rw [he] at hs
          exact absurd (show LOW_TRACK_TIMEOUT = LOW_SEEK from hs) (by decide)
        · rename_i st3 heq2
          split_ifs at hs
          · exact absurd (show LOW_EMPTY = LOW_SEEK from hs) (by decide)
          · exact absurd (show LOW_SUCCESS = LOW_SEEK from hs) (by decide)
  · -- mismatch then match reports success at the seek stage
    intro htm hc0 hc1
    have hres : ∀ st' oe, seekLoop renv track 0 SEEK_RETRIES u = (st', oe) →
        oe = none ∧ st'.floppy_c = track := by
      intro st' oe heq
      exact seekLoop_success_eq renv track SEEK_RETRIES 0 u st' oe heq
        (fun k hk => by simpa using htm k hk)
        ⟨1, by decide, by simpa using hc1⟩
    constructor <;>
    · unfold low_read_track
      split
      · rename_i st1 e heq
        exact absurd (hres st1 (some e) heq).1 (by simp)
      · rename_i st1 heq
        rw [if_neg (not_not_intro (hres st1 none heq).2)]
        show (match readLoop renv 0 READ_RETRIES ({ st1 with lowpos := 0 } : SessState) with
              | (st, some e) => (st, e)
              | (st, none) =>
                if st.lowpos < 1 then (st, LOW_EMPTY) else (st, LOW_SUCCESS)).2 ≠ _
        split
        · rename_i st3 e heq2
          have he := readLoop_some_eq renv READ_RETRIES 0 _ st3 e heq2
          rw [he]
          simp [LOW_TRACK_TIMEOUT, LOW_SEEK, LOW_SEEK_TIMEOUT]
        · rename_i st3 heq2
          split_ifs <;>
            simp [LOW_EMPTY, LOW_SUCCESS, LOW_SEEK, LOW_SEEK_TIMEOUT]

/-- Witness for C4 at a seek environment whose attempt 1 mismatches track
5 and whose attempt 2 matches. -/
theorem c4_retry_until_cylinder_match_witness :
    (((low_open c1OpenEnv 0 c1Start).2 = LOW_CALIBRATE →
      ∀ i, i < SEEK_RETRIES → c1OpenEnv.calCyl i ≠ 0) ∧
    (c1OpenEnv.resetTimeout = false →
      (∀ i, i < SEEK_RETRIES → c1OpenEnv.calTimeout i = false) →
      (∃ i, i < SEEK_RETRIES ∧ c1OpenEnv.calCyl i = 0) →
      (low_open c1OpenEnv 0 c1Start).2 = LOW_SUCCESS) ∧
    ((low_read_track c4ReadEnv 5 c1Start).2 = LOW_SEEK →
      ∀ i, i < SEEK_RETRIES → c4ReadEnv.seekCyl i ≠ 5) ∧
    ((∀ i, i < SEEK_RETRIES → c4ReadEnv.seekTimeout i = false) →
      c4ReadEnv.seekCyl 0 ≠ 5 → c4ReadEnv.seekCyl 1 = 5 →
      (low_read_track c4ReadEnv 5 c1Start).2 ≠ LOW_SEEK ∧
      (low_read_track c4ReadEnv 5 c1Start).2 ≠ LOW_SEEK_TIMEOUT)) :=
  c4_retry_until_cylinder_match c1OpenEnv c4ReadEnv 0 5 c1Start c1Start

/-- C5: when the seek succeeds, `low_read_track` resets the capture
position to zero; if every read attempt completes without timeout and
captures nothing, it returns `LOW_EMPTY` — a code distinct from
`LOW_TRACK_TIMEOUT` — and the Track Buffer still holds exactly what the
caller pre-filled; otherwise (first attempt captures data, no timeout) it
returns success with the buffer populated up to the final position. -/
theorem c5_empty_read_distinct (renv : ReadEnv) (track : Nat) (st : SessState)
    (hseek0 : renv.seekTimeout 0 = false) (hcyl0 : renv.seekCyl 0 = track) :
    ((∀ i, i < READ_RETRIES → renv.readTimeout i = false ∧ renv.readCapture i = []) →
      (low_read_track renv track st).2 = LOW_EMPTY ∧
      (low_read_track renv track st).1.lowpos = 0 ∧
      (low_read_track renv track st).1.lowdata = st.lowdata) ∧
    LOW_EMPTY ≠ LOW_TRACK_TIMEOUT ∧
    (renv.readTimeout 0 = false → renv.readCapture 0 ≠ [] →
      (renv.readCapture 0).length ≤ MAX_TRACK_SIZE →
      (low_read_track renv track st).2 = LOW_SUCCESS ∧
      (low_read_track renv track st).1.lowpos = (renv.readCapture 0).length ∧
      ∀ j, j < (renv.readCapture 0).length →
        (low_read_track renv track st).1.lowdata j
          = ((renv.readCapture 0).getD j (0, 0)).1 % 256) := by
  have hseek : seekLoop renv track 0 SEEK_RETRIES st
      = ({ st with floppy_c := track }, none) := by
    show seekLoop renv track 0 (7 + 1) st = _
    simp [seekLoop, hseek0, hcyl0]
  have hmain : low_read_track renv track st
      = (match readLoop renv 0 READ_RETRIES
            ({ st with floppy_c := track, lowpos := 0 } : SessState) with
        | (st, some e) => (st, e)
        | (st, none) =>
          if st.lowpos < 1 then (st, LOW_EMPTY) else (st, LOW_SUCCESS)) := by
    unfold low_read_track
    rw [hseek]
    dsimp only
    rw [if_neg (show ¬({ st with floppy_c := track } : SessState).floppy_c ≠ track from
      not_not_intro rfl)]
  refine ⟨?_, by decide, ?_⟩
  · intro hall
    obtain ⟨c, hrl⟩ := readLoop_empty_eq renv READ_RETRIES 0
      ({ st with floppy_c := track, lowpos := 0 } : SessState) rfl
      (fun k hk => by simpa using hall k hk)
    rw [hmain, hrl]
    dsimp only
    rw [if_pos (show (0 : Nat) < 1 by decide)]
    exact ⟨rfl, rfl, rfl⟩
  · intro htm0 hne hlen
    have hrl := readLoop_first_eq renv READ_RETRIES
      ({ st with floppy_c := track, lowpos := 0 } : SessState) rfl (by decide) htm0 hne
    obtain ⟨hpos, hdata, -, -, -⟩ := captureBytes_spec (renv.readCapture 0)
      ({ st with floppy_c := track, lowpos := 0 } : SessState) (by simpa using hlen)
    have hlpos : (captureBytes ({ st with floppy_c := track, lowpos := 0 } : SessState)
        (renv.readCapture 0)).lowpos = (renv.readCapture 0).length := by
      simpa using hpos
    have hlen1 : 0 < (renv.readCapture 0).length := List.length_pos.mpr hne
    rw [hmain, hrl]
    dsimp only
    rw [if_neg (show ¬(captureBytes ({ st with floppy_c := track, lowpos := 0 } : SessState)
        (renv.readCapture 0)).lowpos < 1 by omega)]
    refine ⟨rfl, hlpos, ?_⟩
    intro j hj
    have h := hdata j hj
    simpa using h

/-- Witness for C5: seek to track 5 succeeds at once and all four read
attempts capture nothing, on a buffer pre-filled with 0x77. -/
theorem c5_empty_read_distinct_witness :
    (c5ReadEnv.seekTimeout 0 = false) ∧ (c5ReadEnv.seekCyl 0 = 5) ∧
    (((∀ i, i < READ_RETRIES → c5ReadEnv.readTimeout i = false ∧ c5ReadEnv.readCapture i = []) →
      (low_read_track c5ReadEnv 5 c5State).2 = LOW_EMPTY ∧
      (low_read_track c5ReadEnv 5 c5State).1.lowpos = 0 ∧
      (low_read_track c5ReadEnv 5 c5State).1.lowdata = c5State.lowdata) ∧
    LOW_EMPTY ≠ LOW_TRACK_TIMEOUT ∧
    (c5ReadEnv.readTimeout 0 = false → c5ReadEnv.readCapture 0 ≠ [] →
      (c5ReadEnv.readCapture 0).length ≤ MAX_TRACK_SIZE →
      (low_read_track c5ReadEnv 5 c5State).2 = LOW_SUCCESS ∧
      (low_read_track c5ReadEnv 5 c5State).1.lowpos = (c5ReadEnv.readCapture 0).length ∧
      ∀ j, j < (c5ReadEnv.readCapture 0).length →
        (low_read_track c5ReadEnv 5 c5State).1.lowdata j
          = ((c5ReadEnv.readCapture 0).getD j (0, 0)).1 % 256)) :=
  ⟨rfl, rfl, c5_empty_read_distinct c5ReadEnv 5 c5State rfl rfl⟩

theorem readPhase_results (renv : ReadEnv) (b : SessState) :
    (match readLoop renv 0 READ_RETRIES b with
      | (st, some e) => (st, e)
      | (st, none) =>
        if st.lowpos < 1 then (st, LOW_EMPTY) else (st, LOW_SUCCESS)).2
      = LOW_TRACK_TIMEOUT ∨
    (match readLoop renv 0 READ_RETRIES b with
      | (st, some e) => (st, e)
      | (st, none) =>
        if st.lowpos < 1 then (st, LOW_EMPTY) else (st, LOW_SUCCESS)).2
      = LOW_EMPTY ∨
    (match readLoop renv 0 READ_RETRIES b with
      | (st, some e) => (st, e)
      | (st, none) =>
        if st.lowpos < 1 then (st, LOW_EMPTY) else (st, LOW_SUCCESS)).2
      = LOW_SUCCESS := by
  split
  · rename_i st3 e heq
    have he := readLoop_some_eq renv READ_RETRIES 0 _ st3 e heq
    left
    rw [he]
  · rename_i st3 heq
    split_ifs
    · right; left; rfl
    · right; right; rfl

theorem low_read_track_seek_fail_frame (renv : ReadEnv) (track : Nat) (u : SessState)
    (h : (low_read_track renv track u).2 = LOW_SEEK_TIMEOUT ∨
         (low_read_track renv track u).2 = LOW_SEEK) :
    (low_read_track renv track u).1.lowpos = u.lowpos ∧
    (low_read_track renv track u).1.lowdata = u.lowdata ∧
    (low_read_track renv track u).1.lowtime = u.lowtime ∧
    (low_read_track renv track u).1.lowtime_on = u.lowtime_on := by
  unfold low_read_track at h ⊢
  split at h
  · rename_i st1 e heq
    obtain ⟨-, -, -, -, -, f6, f7, f8, f9⟩ :=
      seekLoop_frame renv track SEEK_RETRIES 0 _ st1 (some e) heq
    exact ⟨f6, f7, f8, f9⟩
  · rename_i st1 heq
    by_cases hz : st1.floppy_c ≠ track
    · rw [if_pos hz] at h ⊢
      obtain ⟨-, -, -, -, -, f6, f7, f8, f9⟩ :=
        seekLoop_frame renv track SEEK_RETRIES 0 _ st1 none heq
      exact ⟨f6, f7, f8, f9⟩
    · rw [if_neg hz] at h
      rcases readPhase_results renv ({ st1 with lowpos := 0 } : SessState) with hr | hr | hr <;>
        rcases h with h | h <;>
        · rw [hr] at h
          exact absurd h (by decide)

theorem low_open_buffers_frame (env : OpenEnv) (device : Nat) (st0 : SessState) :
    (low_open env device st0).1.lowpos = st0.lowpos ∧
    (low_open env device st0).1.lowdata = st0.lowdata ∧
    (low_open env device st0).1.lowtime = st0.lowtime ∧
    (low_open env device st0).1.lowtime_on = st0.lowtime_on := by
  unfold low_open
  by_cases hrt : env.resetTimeout
  · simp only [hrt, if_true]
    exact ⟨rfl, rfl, rfl, rfl⟩
  · simp only [hrt, Bool.false_eq_true, if_false]
    split
    · rename_i st1 e heq
      obtain ⟨-, -, -, -, -, f6, f7, f8, f9⟩ :=
        calLoop_frame env SEEK_RETRIES 0 _ st1 (some e) heq
      exact ⟨f6, f7, f8, f9⟩
    · rename_i st1 heq
      obtain ⟨-, -, -, -, -, f6, f7, f8, f9⟩ :=
        calLoop_frame env SEEK_RETRIES 0 _ st1 none heq
      by_cases hz : st1.floppy_c ≠ 0
      · rw [if_pos hz]
        exact ⟨f6, f7, f8, f9⟩
      · rw [if_neg hz]
        exact ⟨f6, f7, f8, f9⟩

theorem mode_low_track_write_out_congr (a b : SessState)
    (h1 : a.lowpos = b.lowpos) (h2 : a.lowdata = b.lowdata)
    (h3 : a.lowtime = b.lowtime) (h4 : a.lowtime_on = b.lowtime_on) :
    (mode_low_track_write a).2 = (mode_low_track_write b).2 := by
  unfold mode_low_track_write
  rw [h1, h2, h3, h4]
  split_ifs <;> rfl

theorem runPairs_length (oe : Nat → Nat → OpenEnv) (re : Nat → Nat → ReadEnv) (device : Nat) :
    ∀ (l : List (Nat × Nat)) (st : SessState),
      (runPairs oe re device l st).2.length = l.length := by
  intro l
  induction l with
  | nil => intro st; rfl
  | cons p rest ih =>
    intro st
    obtain ⟨c, h⟩ := p
    have hlen := ih (mode_low_step (oe c h) (re c h) device c st).1
    simp only [runPairs]
    rcases hs : mode_low_step (oe c h) (re c h) device c st with ⟨st1, rec⟩
    rcases hr : runPairs oe re device rest st1 with ⟨st2, recs⟩
    rw [hs] at hlen
    rw [hr] at hlen
    simpa using hlen

theorem trackPairs_length (tracks sides : Nat) :
    (trackPairs tracks sides).length = tracks * sides := by
  unfold trackPairs
  rw [List.length_flatMap]
  have hmap : List.map (List.length ∘ fun c => List.map (fun h => (c, h)) (List.range sides))
      (List.range tracks) = List.map (fun _ => sides) (List.range tracks) := by
    apply List.map_congr_left
    intro a _
    simp
  rw [hmap, List.map_const', List.length_range, List.sum_replicate, smul_eq_mul]

/-- C10: the multi-track loop writes one record for every (track, side)
pair, failed reads included; and since `low_read_track` resets the capture
position only after its seek phase succeeds, the record written after a
seek timeout or seek failure is built from the capture position and
buffers left over from before the read — identical to the record the
previous state would produce. -/
theorem c10_record_after_seek_failure_reuses_buffers
    (oenv : OpenEnv) (renv : ReadEnv) (device track : Nat) (st : SessState)
    (h1 : (low_open oenv device st).2 = LOW_SUCCESS)
    (h2 : (low_read_track renv track (low_open oenv device st).1).2 = LOW_SEEK_TIMEOUT ∨
          (low_read_track renv track (low_open oenv device st).1).2 = LOW_SEEK) :
    (mode_low_step oenv renv device track st).2 = (mode_low_track_write st).2 ∧
    ∀ (oe : Nat → Nat → OpenEnv) (re : Nat → Nat → ReadEnv) (dev tracks sides : Nat)
      (s0 : SessState),
      (mode_low_finish oe re dev tracks sides s0).2.length = tracks * sides := by
  constructor
  · obtain ⟨b1, b2, b3, b4⟩ := low_open_buffers_frame oenv device st
    obtain ⟨r1, r2, r3, r4⟩ := low_read_track_seek_fail_frame renv track _ h2
    unfold mode_low_step
    rcases ho : low_open oenv device st with ⟨st1, r⟩
    rw [ho] at h1 b1 b2 b3 b4 r1 r2 r3 r4
    rcases hr : low_read_track renv track st1 with ⟨st2, r2'⟩
    rw [hr] at r1 r2 r3 r4
    simp only at h1
    subst h1
    simp only [if_pos rfl]
    rw [hr]
    apply mode_low_track_write_out_congr
    · exact r1.trans b1
    · exact r2.trans b2
    · exact r3.trans b3
    · exact r4.trans b4
  · intro oe re dev tracks sides s0
    unfold mode_low_finish
    rw [runPairs_length, trackPairs_length]

/-- Witness for C10: a run whose open succeeds and whose seek never
reaches track 5, on a state with 3 leftover bytes from a previous read. -/
theorem c10_record_after_seek_failure_reuses_buffers_witness :
    ((low_open c1OpenEnv 0 c10State).2 = LOW_SUCCESS) ∧
    ((low_read_track c10ReadEnv 5 (low_open c1OpenEnv 0 c10State).1).2 = LOW_SEEK_TIMEOUT ∨
     (low_read_track c10ReadEnv 5 (low_open c1OpenEnv 0 c10State).1).2 = LOW_SEEK) ∧
    ((mode_low_step c1OpenEnv c10ReadEnv 0 5 c10State).2 = (mode_low_track_write c10State).2 ∧
    ∀ (oe : Nat → Nat → OpenEnv) (re : Nat → Nat → ReadEnv) (dev tracks sides : Nat)
      (s0 : SessState),
      (mode_low_finish oe re dev tracks sides s0).2.length = tracks * sides) :=
  ⟨by decide, Or.inr (by decide),
    c10_record_after_seek_failure_reuses_buffers c1OpenEnv c10ReadEnv 0 5 c10State
      (by decide) (Or.inr (by decide))⟩

end Flompy
